import Mathlib

/-!
Verification development for `xmanager/xm/executables.py`: executable
specifications and their shared name-derivation rule.

Strings are modelled as Lean `String`s over their character lists.
Python's regex class `\w` is Unicode-aware (it matches Unicode
alphanumerics and the underscore), so the derivation is modelled with
the word classifier as an explicit parameter (`name_from_pathW`); on
codepoints below 128 the classifier is exactly `[A-Za-z0-9_]`
(`isWordChar`), and `name_from_path` is the derivation instantiated to
that ASCII restriction, adequate wherever the characters involved are
ASCII.  `os.sep` is the POSIX separator `'/'`.
-/

/-- The ASCII word class `[A-Za-z0-9_]`: the restriction of Python's
Unicode-aware `\w` to codepoints below 128. -/
def isWordChar (c : Char) : Bool :=
  ('A' ≤ c && c ≤ 'Z') || ('a' ≤ c && c ≤ 'z') || ('0' ≤ c && c ≤ '9') || c = '_'

/-- `path.rstrip(os.sep)`: remove every trailing `'/'`. -/
def rstripSep (s : List Char) : List Char :=
  ((s.reverse).dropWhile (fun c => c = '/')).reverse

/-- `os.path.basename` (posixpath): the suffix after the last `'/'`
(the whole string when it has no `'/'`). -/
def basenameChars (s : List Char) : List Char :=
  ((s.reverse).takeWhile (fun c => c ≠ '/')).reverse

/-- `re.sub('\W', '_', s)` with the word classifier abstracted: each
individual character not matched by the classifier `w` is replaced with
one underscore.  Python's `\w` is Unicode-aware, so `w` stands for that
full classifier. -/
def subNonWordW (w : Char → Bool) (s : List Char) : List Char :=
  s.map (fun c => if w c then c else '_')

/-- `re.sub('\W', '_', s)` instantiated to the ASCII word class:
faithful to the source whenever the characters involved are ASCII. -/
def subNonWord (s : List Char) : List Char :=
  s.map (fun c => if isWordChar c then c else '_')

/-- `_name_from_path` from `executables.py`,
`re.sub('\\W', '_', os.path.basename(path.rstrip(os.sep)))`, with the
word classifier of `\w` as a parameter. -/
def name_from_pathW (w : Char → Bool) (path : String) : String :=
  String.mk (subNonWordW w (basenameChars (rstripSep path.data)))

/-- `_name_from_path` instantiated to the ASCII word class: faithful to
the source on ASCII inputs (see `name_from_pathW` for the general
form). -/
def name_from_path (path : String) : String :=
  String.mk (subNonWord (basenameChars (rstripSep path.data)))

/-- A classifier agrees with Python's `\w` on ASCII: on codepoints
below 128, Python's `\w` matches exactly `[A-Za-z0-9_]`. -/
def AsciiFaithful (w : Char → Bool) : Prop :=
  ∀ c : Char, c.toNat < 128 → w c = isWordChar c

/-- Python's Unicode `\w` at the characters this development evaluates:
`[A-Za-z0-9_]` on ASCII, and the Unicode letter `'é'` (U+00E9), which
Python's `\w` matches (it is alphabetic, hence a word character). -/
def pyWordChar (c : Char) : Bool :=
  isWordChar c || c = 'é'

/-- Spec-side name derivation, written from the spec's words for the
refinement comparison: strip the trailing separators, take the final path
component, then replace every MAXIMAL RUN of non-word characters with a
single underscore (`collapseAux` carries whether the previous character
was part of a non-word run). -/
def collapseAux : List Char → Bool → List Char
  | [], _ => []
  | c :: cs, prevNonWord =>
    if isWordChar c then c :: collapseAux cs false
    else if prevNonWord then collapseAux cs true
    else '_' :: collapseAux cs true

/-- Spec-side name derivation (see `collapseAux`). -/
def derive_name_spec (path : String) : String :=
  String.mk (collapseAux (basenameChars (rstripSep path.data)) false)

/-- `ModuleName` NamedTuple: the python module to execute. -/
structure ModuleName where
  module_name : String
deriving DecidableEq

/-- `CommandList` NamedTuple: shell commands to execute. -/
structure CommandList where
  commands : List String
deriving DecidableEq

/-- The `Union[ModuleName, CommandList]` entrypoint type. -/
inductive Entrypoint where
  | module (m : ModuleName)
  | commands (c : CommandList)
deriving DecidableEq

/-- `PythonContainer` after construction: `path` holds the already
normalized value produced by the `utils.get_absolute_path` converter. -/
structure PythonContainer where
  entrypoint : Entrypoint
  path : String
  base_image : Option String
  docker_instructions : Option (List String)
deriving DecidableEq

/-- `PythonContainer.name` property. -/
def PythonContainer.name (pc : PythonContainer) : String :=
  name_from_path pc.path

/-- `Container`: a prebuilt Docker image. -/
structure Container where
  image_path : String
deriving DecidableEq

/-- `Container.name` property. -/
def Container.name (c : Container) : String :=
  name_from_path c.image_path

/-- `Binary`: a prebuilt executable.  `BinaryDependency` is an open
extension point, so the dependency kind is a type parameter `Dep`. -/
structure Binary (Dep : Type) where
  path : String
  dependencies : List Dep
deriving DecidableEq

/-- `Binary.name` property. -/
def Binary.name {Dep : Type} (b : Binary Dep) : String :=
  name_from_path b.path

/-- `BazelContainer`: a Bazel target producing a .tar image. -/
structure BazelContainer where
  label : String
deriving DecidableEq

/-- `BazelContainer.name` property. -/
def BazelContainer.name (bc : BazelContainer) : String :=
  name_from_path bc.label

/-- `BazelBinary`: a Bazel target producing a self-contained binary. -/
structure BazelBinary (Dep : Type) where
  label : String
  dependencies : List Dep
deriving DecidableEq

/-- `BazelBinary.name` property. -/
def BazelBinary.name {Dep : Type} (bb : BazelBinary Dep) : String :=
  name_from_path bb.label

/-- The `attr.s`-generated constructors raise a construction-time error
(`TypeError`) when a required field (one declared without a default) is
missing; modelled as an `Except` over argument presence. -/
inductive ConstructionError where
  | missingRequiredField
deriving DecidableEq

/-- `PythonContainer.__init__`: `entrypoint` is required; `path`
defaults to `'.'` and passes through the `normalize` converter
(`utils.get_absolute_path`, an external collaborator taken as a
parameter); `base_image` and `docker_instructions` default to `None`. -/
def PythonContainer.construct (normalize : String → String)
    (entrypoint : Option Entrypoint) (path : Option String)
    (base_image : Option (Option String))
    (docker_instructions : Option (Option (List String))) :
    Except ConstructionError PythonContainer :=
  match entrypoint with
  | none => Except.error ConstructionError.missingRequiredField
  | some e =>
      Except.ok
        { entrypoint := e
          path := normalize (path.getD ".")
          base_image := base_image.getD none
          docker_instructions := docker_instructions.getD none }

/-- `Container.__init__`: `image_path` is required. -/
def Container.construct (image_path : Option String) :
    Except ConstructionError Container :=
  match image_path with
  | none => Except.error ConstructionError.missingRequiredField
  | some s => Except.ok { image_path := s }

/-- `Binary.__init__`: `path` is required, `dependencies` defaults to a
fresh empty list (`attr.Factory(list)`). -/
def Binary.construct {Dep : Type} (path : Option String)
    (dependencies : Option (List Dep)) :
    Except ConstructionError (Binary Dep) :=
  match path with
  | none => Except.error ConstructionError.missingRequiredField
  | some p => Except.ok { path := p, dependencies := dependencies.getD [] }

/-- `BazelContainer.__init__`: `label` is required. -/
def BazelContainer.construct (label : Option String) :
    Except ConstructionError BazelContainer :=
  match label with
  | none => Except.error ConstructionError.missingRequiredField
  | some s => Except.ok { label := s }

/-- `BazelBinary.__init__`: `label` is required, `dependencies` defaults
to a fresh empty list (`attr.Factory(list)`). -/
def BazelBinary.construct {Dep : Type} (label : Option String)
    (dependencies : Option (List Dep)) :
    Except ConstructionError (BazelBinary Dep) :=
  match label with
  | none => Except.error ConstructionError.missingRequiredField
  | some s => Except.ok { label := s, dependencies := dependencies.getD [] }

/-- Heap of mutable python lists of dependencies, used to model
`attr.Factory(list)`: each omitted `dependencies` argument allocates a
fresh list object, never a shared default. -/
structure DepHeap (Dep : Type) where
  cells : List (List Dep)
deriving DecidableEq

/-- Allocate a fresh list cell; returns the new heap and the reference. -/
def DepHeap.alloc {Dep : Type} (h : DepHeap Dep) (v : List Dep) :
    DepHeap Dep × Nat :=
  (⟨h.cells ++ [v]⟩, h.cells.length)

/-- Read the list stored at a reference. -/
def DepHeap.read {Dep : Type} (h : DepHeap Dep) (r : Nat) : List Dep :=
  h.cells.getD r []

/-- Mutate the list stored at a reference. -/
def DepHeap.write {Dep : Type} (h : DepHeap Dep) (r : Nat) (v : List Dep) :
    DepHeap Dep :=
  ⟨h.cells.set r v⟩

/-- A `Binary` instance in the heap model: the dependency list is held
by reference. -/
structure BinaryRef where
  path : String
  depsRef : Nat
deriving DecidableEq

/-- Heap-allocating `Binary` construction: the `attr.Factory(list)`
default allocates a fresh empty list for each instance constructed
without explicit dependencies. -/
def Binary.constructH {Dep : Type} (h : DepHeap Dep) (path : String)
    (dependencies : Option (List Dep)) : DepHeap Dep × BinaryRef :=
  match h.alloc (dependencies.getD []) with
  | (h2, r) => (h2, { path := path, depsRef := r })

/-- A `BazelBinary` instance in the heap model. -/
structure BazelBinaryRef where
  label : String
  depsRef : Nat
deriving DecidableEq

/-- Heap-allocating `BazelBinary` construction (see `Binary.constructH`). -/
def BazelBinary.constructH {Dep : Type} (h : DepHeap Dep) (label : String)
    (dependencies : Option (List Dep)) : DepHeap Dep × BazelBinaryRef :=
  match h.alloc (dependencies.getD []) with
  | (h2, r) => (h2, { label := label, depsRef := r })

/-- Two successive `Binary` constructions with omitted dependencies,
starting from an arbitrary heap. -/
def constructTwoBinaries {Dep : Type} (h : DepHeap Dep) (p1 p2 : String) :
    DepHeap Dep × BinaryRef × BinaryRef :=
  match Binary.constructH h p1 none with
  | (h1, b1) =>
    match Binary.constructH h1 p2 none with
    | (h2, b2) => (h2, b1, b2)

/-- Two successive `BazelBinary` constructions with omitted dependencies,
starting from an arbitrary heap. -/
def constructTwoBazelBinaries {Dep : Type} (h : DepHeap Dep) (l1 l2 : String) :
    DepHeap Dep × BazelBinaryRef × BazelBinaryRef :=
  match BazelBinary.constructH h l1 none with
  | (h1, b1) =>
    match BazelBinary.constructH h1 l2 none with
    | (h2, b2) => (h2, b1, b2)

/-- Reading the `name` property of a heap-model `Binary` instance: the
property body is pure, so the heap is returned unchanged. -/
def BinaryRef.readNameH {Dep : Type} (h : DepHeap Dep) (b : BinaryRef) :
    DepHeap Dep × String :=
  (h, name_from_path b.path)

/-- Reading the `name` property of a heap-model `BazelBinary` instance. -/
def BazelBinaryRef.readNameH {Dep : Type} (h : DepHeap Dep)
    (b : BazelBinaryRef) : DepHeap Dep × String :=
  (h, name_from_path b.label)

/-! ## Helper lemmas -/

theorem getD_append_lt {α : Type} (l l2 : List α) (n : Nat) (d : α)
    (h : n < l.length) : (l ++ l2).getD n d = l.getD n d := by
  induction l generalizing n with
  | nil => simp at h
  | cons a t ih =>
    cases n with
    | zero => simp
    | succ m => simpa using ih m (by simpa using h)

theorem getD_append_length {α : Type} (l l2 : List α) (v d : α) :
    (l ++ v :: l2).getD l.length d = v := by
  induction l with
  | nil => simp
  | cons a t ih => simpa using ih

theorem getD_set_ne {α : Type} (l : List α) (m n : Nat) (v d : α)
    (h : m ≠ n) : (l.set m v).getD n d = l.getD n d := by
  induction l generalizing m n with
  | nil => simp
  | cons a t ih =>
    cases m with
    | zero =>
      cases n with
      | zero => exact absurd rfl h
      | succ k => simp
    | succ j =>
      cases n with
      | zero => simp
      | succ k => simpa using ih j k (fun hc => h (by rw [hc]))

theorem dropWhile_sep_replicate (k : Nat) (t : List Char) :
    (List.replicate k '/' ++ t).dropWhile (fun c => c = '/') =
      t.dropWhile (fun c => c = '/') := by
  induction k with
  | zero => rfl
  | succ n ih => simp [List.replicate_succ, ih]

theorem dropWhile_eq_nil_of_all {α : Type} (q : α → Bool) (l : List α)
    (h : ∀ c ∈ l, q c = true) : l.dropWhile q = [] := by
  induction l with
  | nil => rfl
  | cons a t ih =>
    rw [List.dropWhile_cons, if_pos (h a (List.mem_cons_self a t))]
    exact ih fun c hc => h c (List.mem_cons_of_mem a hc)

theorem word_char_ne_sep {c : Char} (h : isWordChar c = true) : c ≠ '/' := by
  intro hc
  subst hc
  exact absurd h (by decide)

theorem dropWhile_sep_eq_self_of_word (l : List Char)
    (h : ∀ c ∈ l, isWordChar c = true) :
    l.dropWhile (fun c => c = '/') = l := by
  cases l with
  | nil => rfl
  | cons a t =>
    have ha : a ≠ '/' := word_char_ne_sep (h a (List.mem_cons_self a t))
    rw [List.dropWhile_cons, if_neg (by simpa using ha)]

theorem takeWhile_eq_self_of_word (l : List Char)
    (h : ∀ c ∈ l, isWordChar c = true) :
    l.takeWhile (fun c => c ≠ '/') = l := by
  induction l with
  | nil => rfl
  | cons a t ih =>
    have ha : a ≠ '/' := word_char_ne_sep (h a (List.mem_cons_self a t))
    rw [List.takeWhile_cons, if_pos (by simpa using ha)]
    rw [ih fun c hc => h c (List.mem_cons_of_mem a hc)]

theorem subNonWord_eq_self_of_word (l : List Char)
    (h : ∀ c ∈ l, isWordChar c = true) : subNonWord l = l := by
  induction l with
  | nil => rfl
  | cons a t ih =>
    have ht := ih fun c hc => h c (List.mem_cons_of_mem a hc)
    simp only [subNonWord, List.map_cons] at ht ⊢
    rw [if_pos (h a (List.mem_cons_self a t)), ht]

theorem constructTwoBinaries_eq {Dep : Type} (h : DepHeap Dep)
    (p1 p2 : String) :
    constructTwoBinaries h p1 p2 =
      (⟨(h.cells ++ [[]]) ++ [[]]⟩, ⟨p1, h.cells.length⟩,
        ⟨p2, h.cells.length + 1⟩) := by
  simp [constructTwoBinaries, Binary.constructH, DepHeap.alloc]

theorem constructTwoBazelBinaries_eq {Dep : Type} (h : DepHeap Dep)
    (l1 l2 : String) :
    constructTwoBazelBinaries h l1 l2 =
      (⟨(h.cells ++ [[]]) ++ [[]]⟩, ⟨l1, h.cells.length⟩,
        ⟨l2, h.cells.length + 1⟩) := by
  simp [constructTwoBazelBinaries, BazelBinary.constructH, DepHeap.alloc]

theorem read_two_allocs_fst {Dep : Type} (cells : List (List Dep)) :
    DepHeap.read ⟨(cells ++ [[]]) ++ [[]]⟩ cells.length = ([] : List Dep) := by
  show ((cells ++ [[]]) ++ [[]]).getD cells.length [] = []
  rw [getD_append_lt _ _ _ _ (by simp), getD_append_length]

theorem read_two_allocs_snd {Dep : Type} (cells : List (List Dep)) :
    DepHeap.read ⟨(cells ++ [[]]) ++ [[]]⟩ (cells.length + 1) = ([] : List Dep) := by
  show ((cells ++ [[]]) ++ [[]]).getD (cells.length + 1) [] = []
  have hl : (cells ++ [[]]).length = cells.length + 1 := by simp
  rw [← hl, getD_append_length]

theorem mem_basename_rstrip_subset {c : Char} {s : List Char}
    (h : c ∈ basenameChars (rstripSep s)) : c ∈ s := by
  unfold basenameChars at h
  have h1 : c ∈ rstripSep s :=
    List.mem_reverse.mp
      ((List.takeWhile_sublist _).subset (List.mem_reverse.mp h))
  unfold rstripSep at h1
  exact List.mem_reverse.mp
    ((List.dropWhile_sublist _).subset (List.mem_reverse.mp h1))

theorem subNonWordW_congr_ascii {w : Char → Bool} (hw : AsciiFaithful w)
    {l : List Char} (hl : ∀ c ∈ l, c.toNat < 128) :
    subNonWordW w l = subNonWord l := by
  induction l with
  | nil => rfl
  | cons a t ih =>
    have ht : subNonWordW w t = subNonWord t :=
      ih fun c hc => hl c (List.mem_cons_of_mem a hc)
    show (if w a then a else '_') :: subNonWordW w t =
      (if isWordChar a then a else '_') :: subNonWord t
    rw [hw a (hl a (List.mem_cons_self a t)), ht]

/-! ## Claim theorems -/

/-- C1 counterexample: the name derivation does NOT collapse a maximal
run of non-word characters to one underscore (it substitutes one
underscore per character), and on `"//foo/bar:image.tar"` it yields
`"bar_image_tar"` (the final path component only), not the claimed
`"foo_bar_image_tar"`. -/
theorem name_derivation_claim_counterexample :
    name_from_path "//foo/bar:image.tar" ≠ "foo_bar_image_tar" ∧
    name_from_path "a--b" = "a__b" ∧
    derive_name_spec "a--b" = "a_b" ∧
    derive_name_spec "//foo/bar:image.tar" = "bar_image_tar" := by
  refine ⟨by decide, by decide, by decide, by decide⟩

/-- C1 (amended): the name derivation strips trailing path separators,
takes the final path component, then replaces each individual character
outside Python's word class `\w` with one underscore — whatever the
word classifier, the output has exactly one character per character of
the final path component (no run is collapsed) — and since
`"//foo/bar:image.tar"` is ASCII, every classifier agreeing with `\w`
on ASCII gives `derive_name("//foo/bar:image.tar") = "bar_image_tar"`. -/
theorem name_derivation_per_char :
    (∀ (w : Char → Bool) (p : String), (name_from_pathW w p).data =
      (basenameChars (rstripSep p.data)).map
        (fun c => if w c then c else '_')) ∧
    (∀ (w : Char → Bool) (p : String),
      (name_from_pathW w p).data.length =
        (basenameChars (rstripSep p.data)).length) ∧
    (∀ w : Char → Bool, AsciiFaithful w →
      name_from_pathW w "//foo/bar:image.tar" = "bar_image_tar") ∧
    name_from_path "//foo/bar:image.tar" = "bar_image_tar" := by
  refine ⟨fun w p => rfl, fun w p => ?_, fun w hw => ?_, by decide⟩
  · show (subNonWordW w (basenameChars (rstripSep p.data))).length = _
    exact List.length_map _ _
  · apply String.ext
    show subNonWordW w
      (basenameChars (rstripSep ("//foo/bar:image.tar" : String).data)) = _
    rw [subNonWordW_congr_ascii hw (by decide)]
    decide

/-- C1 witness: the ASCII restriction itself is an ASCII-faithful
classifier, and the example evaluates concretely. -/
theorem name_derivation_per_char_witness :
    name_from_pathW isWordChar "//foo/bar:image.tar" = "bar_image_tar" :=
  name_derivation_per_char.2.2.1 isWordChar fun _ _ => rfl

/-- C2: every variant's `name` property is `_name_from_path` applied to
its single identifying string (`image_path`, `path`, `label`, or the
stored normalized `path`). -/
theorem name_accessors_apply_derivation :
    ∀ (Dep : Type) (c : Container) (b : Binary Dep) (bc : BazelContainer)
      (bb : BazelBinary Dep) (pc : PythonContainer),
      c.name = name_from_path c.image_path ∧
      b.name = name_from_path b.path ∧
      bc.name = name_from_path bc.label ∧
      bb.name = name_from_path bb.label ∧
      pc.name = name_from_path pc.path :=
  fun _ _ _ _ _ _ => ⟨rfl, rfl, rfl, rfl, rfl⟩

/-- C3 counterexample: Python's `\w` is Unicode-aware, so a non-ASCII
word character survives derivation: `derive_name("café") = "café"`,
whose character `'é'` is outside `[A-Za-z0-9_]`. -/
theorem derived_name_ascii_counterexample :
    name_from_pathW pyWordChar "café" = "café" ∧
    'é' ∈ ("café" : String).data ∧
    isWordChar 'é' = false := by
  refine ⟨by decide, by decide, by decide⟩

/-- C3 (amended): every character of a derived name is a word character
under the word classifier of `\w` (kept characters match it and every
substituted character is `'_'`, itself a word character); for inputs of
ASCII characters, every character of the derived name is in
`[A-Za-z0-9_]`. -/
theorem derived_name_chars_are_word_chars :
    (∀ (w : Char → Bool), w '_' = true → ∀ (p : String) (c : Char),
      c ∈ (name_from_pathW w p).data → w c = true) ∧
    (∀ (w : Char → Bool), AsciiFaithful w → ∀ p : String,
      (∀ c ∈ p.data, c.toNat < 128) →
      ∀ c ∈ (name_from_pathW w p).data, isWordChar c = true) := by
  constructor
  · intro w hw p c h
    have hm : c ∈ subNonWordW w (basenameChars (rstripSep p.data)) := h
    rcases List.mem_map.mp hm with ⟨a, _, rfl⟩
    cases hwa : w a with
    | true => simp [hwa]
    | false =>
      rw [if_neg (by simp [hwa])]
      exact hw
  · intro w hw p hp c h
    have hm : c ∈ subNonWordW w (basenameChars (rstripSep p.data)) := h
    rcases List.mem_map.mp hm with ⟨a, ha, rfl⟩
    have haA : a.toNat < 128 := hp a (mem_basename_rstrip_subset ha)
    have hwa : w a = isWordChar a := hw a haA
    cases hia : isWordChar a with
    | true =>
      rw [if_pos (hwa.trans hia)]
      exact hia
    | false =>
      rw [if_neg (by simp [hwa, hia])]
      decide

/-- C3 witness with the classifier at `"café"`: the surviving `'é'` is
a word character of Python's `\w`. -/
theorem derived_name_chars_are_word_chars_witness :
    pyWordChar '_' = true ∧
    'é' ∈ (name_from_pathW pyWordChar "café").data ∧
    pyWordChar 'é' = true :=
  ⟨by decide, by decide,
    derived_name_chars_are_word_chars.1 pyWordChar (by decide) "café" 'é'
      (by decide)⟩

/-- C4: appending any number of trailing separators never changes the
derived name, because `rstrip` removes them all before the basename is
taken. -/
theorem trailing_separators_insignificant (p : String) (k : Nat) :
    name_from_path (p ++ String.mk (List.replicate k '/')) =
      name_from_path p := by
  have hdata : (p ++ String.mk (List.replicate k '/')).data =
      p.data ++ List.replicate k '/' := String.data_append p _
  have hstrip : rstripSep (p.data ++ List.replicate k '/') =
      rstripSep p.data := by
    unfold rstripSep
    rw [List.reverse_append, List.reverse_replicate, dropWhile_sep_replicate]
  apply String.ext
  show subNonWord (basenameChars (rstripSep
      (p ++ String.mk (List.replicate k '/')).data)) = _
  rw [hdata, hstrip]
  rfl

/-- C5 counterexample: a constructed `Container` whose `image_path` is
`"/"` has the empty string as its name — the name accessor does not
always return a non-empty identifier. -/
theorem empty_name_counterexample :
    Container.construct (some "/") = Except.ok { image_path := "/" } ∧
    Container.name { image_path := "/" } = "" ∧
    name_from_path "" = "" := by
  refine ⟨rfl, by decide, by decide⟩

/-- C5 (amended): when the sanitized basename is empty (the input is
empty or consists only of separators) the derived name is the empty
string, and the empty identifier propagates silently through the name
accessor. -/
theorem empty_basename_gives_empty_name :
    (∀ p : String, (∀ c ∈ p.data, c = '/') → name_from_path p = "") ∧
    name_from_path "" = "" := by
  refine ⟨fun p h => ?_, by decide⟩
  have h1 : rstripSep p.data = [] := by
    unfold rstripSep
    rw [dropWhile_eq_nil_of_all _ _
      (fun c hc => decide_eq_true (h c (List.mem_reverse.mp hc)))]
    rfl
  apply String.ext
  show subNonWord (basenameChars (rstripSep p.data)) = String.data ""
  rw [h1]
  rfl

/-- C5 witness at `p = "//"`. -/
theorem empty_basename_gives_empty_name_witness :
    (∀ c ∈ ("//" : String).data, c = '/') ∧ name_from_path "//" = "" :=
  ⟨by decide, empty_basename_gives_empty_name.1 "//" (by decide)⟩

/-- C6: on inputs made only of word characters the derivation is the
identity (and equals the basename, which is the whole input), and
`derive_name("/a/b/c-d.txt") = "c_d_txt"`. -/
theorem word_char_input_is_identity :
    (∀ p : String, (∀ c ∈ p.data, isWordChar c = true) →
      name_from_path p = String.mk (basenameChars p.data) ∧
      name_from_path p = p) ∧
    name_from_path "/a/b/c-d.txt" = "c_d_txt" := by
  refine ⟨fun p h => ?_, by decide⟩
  have h1 : rstripSep p.data = p.data := by
    unfold rstripSep
    rw [dropWhile_sep_eq_self_of_word _
      (fun c hc => h c (List.mem_reverse.mp hc)), List.reverse_reverse]
  have h2 : basenameChars p.data = p.data := by
    unfold basenameChars
    rw [takeWhile_eq_self_of_word _
      (fun c hc => h c (List.mem_reverse.mp hc)), List.reverse_reverse]
  have key : name_from_path p = p := by
    apply String.ext
    show subNonWord (basenameChars (rstripSep p.data)) = p.data
    rw [h1, h2, subNonWord_eq_self_of_word p.data h]
  refine ⟨?_, key⟩
  rw [key]
  apply String.ext
  show p.data = basenameChars p.data
  exact h2.symm

/-- C6 witness at `p = "abc_123"`. -/
theorem word_char_input_is_identity_witness :
    (∀ c ∈ ("abc_123" : String).data, isWordChar c = true) ∧
    name_from_path "abc_123" = "abc_123" :=
  ⟨by decide, (word_char_input_is_identity.1 "abc_123" (by decide)).2⟩

/-- C7: constructing any variant with a required field absent fails at
construction time with the invalid-construction error, so no usable
instance is ever produced. -/
theorem missing_required_field_fails :
    (∀ (normalize : String → String) (p : Option String)
        (b : Option (Option String)) (d : Option (Option (List String))),
      PythonContainer.construct normalize none p b d =
        Except.error ConstructionError.missingRequiredField) ∧
    Container.construct none =
      Except.error ConstructionError.missingRequiredField ∧
    (∀ (Dep : Type) (d : Option (List Dep)),
      Binary.construct none d =
        Except.error ConstructionError.missingRequiredField) ∧
    BazelContainer.construct none =
      Except.error ConstructionError.missingRequiredField ∧
    (∀ (Dep : Type) (d : Option (List Dep)),
      BazelBinary.construct none d =
        Except.error ConstructionError.missingRequiredField) ∧
    (∀ c : Container, Container.construct none ≠ Except.ok c) := by
  refine ⟨fun _ _ _ _ => rfl, rfl, fun _ _ => rfl, rfl, fun _ _ => rfl, ?_⟩
  intro c hc
  simp [Container.construct] at hc

theorem write_other_preserves {Dep : Type} (cells : List (List Dep))
    (m n : Nat) (v : List Dep) (hmn : m ≠ n) :
    DepHeap.read (DepHeap.write ⟨cells⟩ m v) n = DepHeap.read ⟨cells⟩ n := by
  show (cells.set m v).getD n [] = cells.getD n []
  exact getD_set_ne cells m n v [] hmn

/-- C8: a `Binary` or `BazelBinary` constructed without explicit
dependencies gets an empty dependency sequence, and two separately
constructed instances hold distinct freshly allocated sequences, so
mutating either one's sequence leaves the other's untouched. -/
theorem default_dependencies_fresh_and_independent (Dep : Type)
    (h : DepHeap Dep) (p1 p2 l1 l2 : String) (v : List Dep) :
    Binary.construct (some p1) (none : Option (List Dep)) =
      Except.ok { path := p1, dependencies := [] } ∧
    BazelBinary.construct (some l1) (none : Option (List Dep)) =
      Except.ok { label := l1, dependencies := [] } ∧
    ((constructTwoBinaries h p1 p2).2.1).depsRef ≠
      ((constructTwoBinaries h p1 p2).2.2).depsRef ∧
    ((constructTwoBinaries h p1 p2).1).read
      ((constructTwoBinaries h p1 p2).2.1).depsRef = [] ∧
    ((constructTwoBinaries h p1 p2).1).read
      ((constructTwoBinaries h p1 p2).2.2).depsRef = [] ∧
    (((constructTwoBinaries h p1 p2).1).write
        ((constructTwoBinaries h p1 p2).2.2).depsRef v).read
      ((constructTwoBinaries h p1 p2).2.1).depsRef = [] ∧
    (((constructTwoBinaries h p1 p2).1).write
        ((constructTwoBinaries h p1 p2).2.1).depsRef v).read
      ((constructTwoBinaries h p1 p2).2.2).depsRef = [] ∧
    ((constructTwoBazelBinaries h l1 l2).2.1).depsRef ≠
      ((constructTwoBazelBinaries h l1 l2).2.2).depsRef ∧
    (((constructTwoBazelBinaries h l1 l2).1).write
        ((constructTwoBazelBinaries h l1 l2).2.2).depsRef v).read
      ((constructTwoBazelBinaries h l1 l2).2.1).depsRef = [] := by
  rw [constructTwoBinaries_eq, constructTwoBazelBinaries_eq]
  refine ⟨rfl, rfl, ?_, ?_, ?_, ?_, ?_, ?_, ?_⟩
  · show h.cells.length ≠ h.cells.length + 1
    omega
  · exact read_two_allocs_fst h.cells
  · exact read_two_allocs_snd h.cells
  · show DepHeap.read (DepHeap.write ⟨(h.cells ++ [[]]) ++ [[]]⟩
        (h.cells.length + 1) v) h.cells.length = []
    rw [write_other_preserves _ _ _ _ (by omega)]
    exact read_two_allocs_fst h.cells
  · show DepHeap.read (DepHeap.write ⟨(h.cells ++ [[]]) ++ [[]]⟩
        h.cells.length v) (h.cells.length + 1) = []
    rw [write_other_preserves _ _ _ _ (by omega)]
    exact read_two_allocs_snd h.cells
  · show h.cells.length ≠ h.cells.length + 1
    omega
  · show DepHeap.read (DepHeap.write ⟨(h.cells ++ [[]]) ++ [[]]⟩
        (h.cells.length + 1) v) h.cells.length = []
    rw [write_other_preserves _ _ _ _ (by omega)]
    exact read_two_allocs_fst h.cells

/-- C9: `PythonContainer` stores `entrypoint` and `docker_instructions`
verbatim — reading back after constructing with
`ModuleName("pkg.main")` yields an equal value, and the stored
instruction list is exactly the one passed in, with nothing injected. -/
theorem python_container_stores_verbatim :
    (∀ (normalize : String → String) (p : Option String)
        (b : Option (Option String)) (e : Entrypoint)
        (d : Option (List String)),
      PythonContainer.construct normalize (some e) p b (some d) =
        Except.ok { entrypoint := e, path := normalize (p.getD "."),
                    base_image := b.getD none, docker_instructions := d }) ∧
    PythonContainer.construct (fun s => s)
        (some (Entrypoint.module { module_name := "pkg.main" }))
        none none none =
      Except.ok
        { entrypoint := Entrypoint.module { module_name := "pkg.main" },
          path := ".", base_image := none, docker_instructions := none } :=
  ⟨fun _ _ _ _ _ => rfl, rfl⟩

/-- C10: the core's operations never change a field of an existing spec
instance: constructing a new instance preserves every existing
dependency cell (the only mutable state in the model), and reading
`name` returns the heap unchanged together with the pure derivation of
the instance's identifying string. -/
theorem core_operations_preserve_existing_specs :
    (∀ (Dep : Type) (h : DepHeap Dep) (p : String) (ds : Option (List Dep))
        (r : Nat), r < h.cells.length →
      ((Binary.constructH h p ds).1).read r = h.read r) ∧
    (∀ (Dep : Type) (h : DepHeap Dep) (l : String) (ds : Option (List Dep))
        (r : Nat), r < h.cells.length →
      ((BazelBinary.constructH h l ds).1).read r = h.read r) ∧
    (∀ (Dep : Type) (h : DepHeap Dep) (b : BinaryRef),
      (BinaryRef.readNameH h b).1 = h ∧
      (BinaryRef.readNameH h b).2 = name_from_path b.path) ∧
    (∀ (Dep : Type) (h : DepHeap Dep) (b : BazelBinaryRef),
      (BazelBinaryRef.readNameH h b).1 = h ∧
      (BazelBinaryRef.readNameH h b).2 = name_from_path b.label) := by
  refine ⟨?_, ?_, fun _ _ _ => ⟨rfl, rfl⟩, fun _ _ _ => ⟨rfl, rfl⟩⟩
  · intro Dep h p ds r hr
    show ((h.cells ++ [ds.getD []]).getD r []) = h.cells.getD r []
    exact getD_append_lt _ _ _ _ hr
  · intro Dep h l ds r hr
    show ((h.cells ++ [ds.getD []]).getD r []) = h.cells.getD r []
    exact getD_append_lt _ _ _ _ hr

/-- C10 witness: a one-cell heap, a fresh `Binary` construction, and
the preserved cell read back concretely. -/
theorem core_operations_preserve_existing_specs_witness :
    0 < (DepHeap.cells (⟨[[1]]⟩ : DepHeap Nat)).length ∧
    ((Binary.constructH (⟨[[1]]⟩ : DepHeap Nat) "x" none).1).read 0 =
      DepHeap.read (⟨[[1]]⟩ : DepHeap Nat) 0 :=
  ⟨by decide,
    core_operations_preserve_existing_specs.1 Nat ⟨[[1]]⟩ "x" none 0
      (by decide)⟩
